import Mathlib

/-!
Verification of `summarize_smina_components.py`.

The program is a log-to-CSV summarizer: `parse_log` scans a SMINA score-only
log for an affinity value, an intramolecular-energy value and a line of raw
per-term scores; `build_summary` multiplies the raw scores by a fixed
coefficient table; `write_summary_csv` serializes one header row and one data
row in a fixed column order.

Modelling conventions:
* a text line is a `List Char` (the content of the line, without the trailing
  newline); the input file is a `List (List Char)`;
* Python `float` values are modelled as exact rationals `ℚ` (the claims under
  verification are about parsing structure and exact arithmetic identities,
  which the rational model reflects faithfully);
* Python `float(str)` is modelled by `parseFloat`, covering the decimal
  grammar (sign, integer/fraction digits, optional exponent) that the log
  tokens use; Python dictionaries are modelled as `String → Option Cell`;
* exceptions are modelled with `Except PyError`.
-/

/-- A cell value of the summary mapping: a number, the empty string used for
the reserved per-atom placeholder columns, or Python `None`. -/
inductive Cell where
  | num (q : ℚ)
  | blank
  | pynone
deriving DecidableEq, Repr

/-- The errors `parse_log` can raise: `float()` failing on a token
(`ValueError`), an out-of-range list index (`IndexError`), and the
malformed-log `ValueError` raised explicitly with its message. -/
inductive PyError where
  | valueError (tok : List Char)
  | indexError
  | malformedLog (msg : List Char)
deriving DecidableEq, Repr

/-- The fixed catalog `TERM_NAMES`: key, display label, coefficient. -/
def TERM_NAMES : List (String × String × ℚ) :=
  [("gauss1", "gauss(o=0,_w=0.5,_c=8)", -0.035579),
   ("gauss2", "gauss(o=3,_w=2,_c=8)", -0.005156),
   ("repulsion", "repulsion(o=0,_c=8)", 0.840245),
   ("hydrophobic", "hydrophobic(g=0.5,_b=1.5,_c=8)", -0.035069),
   ("hydrogen_bond", "non_dir_h_bond(g=-0.7,_b=0,_c=8)", -0.587439),
   ("torsion", "num_tors_div", 1.923)]

/-- The literal prefix `"Affinity:"` tested with `str.startswith`. -/
def AFFINITY_PREFIX : List Char := "Affinity:".data

/-- The literal prefix `"Intramolecular energy:"` tested with `str.startswith`. -/
def INTRA_PREFIX : List Char := "Intramolecular energy:".data

/-- Helper for `splitWs`: accumulates the current token (reversed) while
walking the characters. -/
def splitWsAux : List Char → List Char → List (List Char)
  | [], acc => if acc.isEmpty then [] else [acc.reverse]
  | c :: cs, acc =>
    if c.isWhitespace then
      if acc.isEmpty then splitWsAux cs [] else acc.reverse :: splitWsAux cs []
    else splitWsAux cs (c :: acc)

/-- Python `str.split()` with no argument: split on runs of whitespace and
drop empty tokens. -/
def splitWs (s : List Char) : List (List Char) := splitWsAux s []

/-- Consume a run of decimal digits: returns the accumulated value, the
number of digits consumed, and the rest of the input. -/
def takeDigits : List Char → Nat → Nat → Nat × Nat × List Char
  | [], acc, cnt => (acc, cnt, [])
  | c :: cs, acc, cnt =>
    if c.isDigit then takeDigits cs (10 * acc + (c.toNat - 48)) (cnt + 1)
    else (acc, cnt, c :: cs)

/-- Consume an optional leading sign; returns whether it was a minus. -/
def parseSign : List Char → Bool × List Char
  | '-' :: cs => (true, cs)
  | '+' :: cs => (false, cs)
  | cs => (false, cs)

/-- Exponent part of a float literal, applied to an already-parsed mantissa. -/
def parseExp (m : ℚ) (s : List Char) : Option ℚ :=
  let (eneg, s1) := parseSign s
  let (ev, ec, s2) := takeDigits s1 0 0
  if ec = 0 then none
  else match s2 with
    | [] => some (if eneg then m / (10 : ℚ) ^ ev else m * (10 : ℚ) ^ ev)
    | _ => none

/-- Model of Python `float(token)` on whitespace-free tokens, as used by
`_is_float` and the float conversions in `parse_log`: optional sign,
digits with an optional decimal point (at least one digit overall), and an
optional exponent.  Returns `none` exactly when `float()` raises
`ValueError`. -/
def parseFloat (s : List Char) : Option ℚ :=
  let (neg, s1) := parseSign s
  let (ip, ic, s2) := takeDigits s1 0 0
  let (fp, fc, s3) :=
    match s2 with
    | '.' :: cs => takeDigits cs 0 0
    | _ => (0, 0, s2)
  if ic + fc = 0 then none
  else
    let base : ℚ := (ip : ℚ) + (fp : ℚ) / (10 : ℚ) ^ fc
    let signed := if neg then -base else base
    match s2 with
    | '.' :: _ =>
      match s3 with
      | [] => some signed
      | 'e' :: cs => parseExp signed cs
      | 'E' :: cs => parseExp signed cs
      | _ => none
    | _ =>
      match s2 with
      | [] => some signed
      | 'e' :: cs => parseExp signed cs
      | 'E' :: cs => parseExp signed cs
      | _ => none

/-- Model of `LOG_RAW_PATTERN.match(line)` followed by
`match.group(1).strip().split()`.  The regex is anchored: two hash marks,
then at least one whitespace character, then at least one further character.
Because the captured group is the line after the hash marks with a nonempty
whitespace prefix removed, stripping and splitting the group equals
splitting everything after the hash marks. -/
def rawMatch (line : List Char) : Option (List (List Char)) :=
  match line with
  | a :: b :: c :: rest =>
    if a = '#' ∧ b = '#' ∧ c.isWhitespace = true ∧ rest ≠ [] then
      some (splitWs (c :: rest))
    else none
  | _ => none

/-- `all(_is_float(n) for n in numbers)` combined with the comprehension
`[float(n) for n in numbers]`: parse every token, `none` if any fails. -/
def mapMFloat : List (List Char) → Option (List ℚ)
  | [] => some []
  | t :: ts =>
    match parseFloat t, mapMFloat ts with
    | some v, some vs => some (v :: vs)
    | _, _ => none

/-- Result of one iteration of the scanning loop in `parse_log`: raise, go to
the next line with updated accumulators, or `break` with the raw values. -/
inductive StepRes where
  | err (e : PyError)
  | cont (a i : Option ℚ)
  | brk (vs : List ℚ)

/-- One iteration of the `for line in fh` loop body of `parse_log`, given the
current `affinity` and `intramolecular` accumulators. -/
def scanStep (line : List Char) (a i : Option ℚ) : StepRes :=
  if AFFINITY_PREFIX.isPrefixOf line then
    match (splitWs line)[1]? with
    | none => .err .indexError
    | some tok =>
      match parseFloat tok with
      | none => .err (.valueError tok)
      | some v => .cont (some v) i
  else if INTRA_PREFIX.isPrefixOf line then
    match (splitWs line)[2]? with
    | none => .err .indexError
    | some tok =>
      match parseFloat tok with
      | none => .err (.valueError tok)
      | some v => .cont a (some v)
  else
    match rawMatch line with
    | none => .cont a i
    | some toks =>
      match mapMFloat toks with
      | none => .cont a i
      | some vs => if toks.isEmpty then .cont a i else .brk vs

/-- The scanning loop of `parse_log`: threads the accumulators through
`scanStep`; the third component is `raw_values` (`none` while not found). -/
def parseLines :
    List (List Char) → Option ℚ → Option ℚ →
    Except PyError (Option ℚ × Option ℚ × Option (List ℚ))
  | [], a, i => .ok (a, i, none)
  | l :: ls, a, i =>
    match scanStep l a i with
    | .err e => .error e
    | .cont a' i' => parseLines ls a' i'
    | .brk vs => .ok (a, i, some vs)

/-- The single quote character, used by the error message. -/
def SQ : Char := Char.ofNat 39

/-- The score-only flag named in the malformed-log hint. -/
def SCORE_ONLY_FLAG : List Char := "--score_only".data

/-- The message of the malformed-log `ValueError`, with the log path
interpolated between single quotes. -/
def malformed_message (log_path : List Char) : List Char :=
  ("Could not locate all raw term values in log ".data ++ [SQ]) ++
    log_path ++
    (([SQ] ++ ". Please ensure the log was generated with ".data ++ [SQ]) ++
      SCORE_ONLY_FLAG ++ [SQ, '.'])

/-- `parse_log`: scan the lines, then check that raw values were found and
number at least `len(TERM_NAMES)`; return the affinity, the intramolecular
energy, and the raw values truncated to the catalog size. -/
def parse_log (log_path : List Char) (lines : List (List Char)) :
    Except PyError (Option ℚ × Option ℚ × List ℚ) :=
  match parseLines lines none none with
  | .error e => .error e
  | .ok (a, i, raw) =>
    match raw with
    | none => .error (.malformedLog (malformed_message log_path))
    | some vs =>
      if vs.length < TERM_NAMES.length then
        .error (.malformedLog (malformed_message log_path))
      else .ok (a, i, vs.take TERM_NAMES.length)

/-- A Python dictionary with string keys and cell values. -/
def Dict : Type := String → Option Cell

/-- The empty dictionary. -/
def emptyDict : Dict := fun _ => none

/-- `d[k] = v`. -/
def dupd (d : Dict) (k : String) (v : Cell) : Dict :=
  fun k' => if k' = k then some v else d k'

/-- `d.setdefault(k, v)`. -/
def setdefault (d : Dict) (k : String) (v : Cell) : Dict :=
  fun k' => if k' = k then some ((d k).getD v) else d k'

/-- A Python value of type `float | None` as a cell. -/
def cellOfOpt : Option ℚ → Cell
  | some q => .num q
  | none => .pynone

/-- `build_summary(raw_values, intramolecular)`: per-term entries
(`<key>_raw`, `<key>_coeff`, `<key>_weighted` and the bare `<key>` alias),
the intramolecular energy, the two totals, and the five always-blank
per-atom placeholders. -/
def build_summary (raw_values : List ℚ) (intramolecular : Option ℚ) : Dict :=
  let termEntries :=
    (TERM_NAMES.zip raw_values).foldl
      (fun d p =>
        let tk := p.1.1
        let coeff := p.1.2.2
        let raw := p.2
        let weighted := raw * coeff
        dupd (dupd (dupd (dupd d (tk ++ "_raw") (.num raw))
          (tk ++ "_coeff") (.num coeff))
          (tk ++ "_weighted") (.num weighted))
          tk (.num weighted))
      emptyDict
  let total_raw := raw_values.foldl (fun s x => s + x) 0
  let total_weighted :=
    (TERM_NAMES.zip raw_values).foldl (fun s p => s + p.2 * p.1.2.2) 0
  let d := dupd termEntries "SMINA_Intramolecular" (cellOfOpt intramolecular)
  let d := dupd d "SMINA_Total_Raw" (.num total_raw)
  let d := dupd d "SMINA_Total_Weighted" (.num total_weighted)
  let d := dupd d "gauss1_per_atom" .blank
  let d := dupd d "gauss2_per_atom" .blank
  let d := dupd d "repulsion_per_atom" .blank
  let d := dupd d "hydrophobic_per_atom" .blank
  let d := dupd d "hydrogen_bond_per_atom" .blank
  d

/-- The fixed `field_order` list of `write_summary_csv`, verbatim. -/
def field_order : List String :=
  ["SMINA_Intramolecular",
   "SMINA_Total_Raw",
   "SMINA_Total_Weighted",
   "gauss1_raw",
   "gauss1_coeff",
   "gauss1_weighted",
   "gauss2_raw",
   "gauss2_coeff",
   "gauss2_weighted",
   "repulsion_raw",
   "repulsion_coeff",
   "repulsion_weighted",
   "hydrophobic_raw",
   "hydrophobic_coeff",
   "hydrophobic_weighted",
   "hydrogen_bond_raw",
   "hydrogen_bond_coeff",
   "hydrogen_bond_weighted",
   "torsion_raw",
   "torsion_coeff",
   "torsion_weighted",
   "gauss1_per_atom",
   "gauss2_per_atom",
   "repulsion_per_atom",
   "hydrophobic_per_atom",
   "hydrogen_bond_per_atom",
   "gauss1",
   "gauss2",
   "repulsion",
   "hydrophobic",
   "hydrogen_bond",
   "Affinity"]

/-- `TERM_NAMES[-1][2]`, the torsion coefficient used as `setdefault`
fallback for `torsion_coeff`. -/
def TORSION_COEFF : ℚ := (TERM_NAMES.getLastD ("", "", 0)).2.2

/-- `summary_with_affinity = dict(summary); summary_with_affinity["Affinity"] = affinity`. -/
def with_affinity (summary : Dict) (affinity : Option ℚ) : Dict :=
  dupd summary "Affinity" (cellOfOpt affinity)

/-- The `setdefault` loop of `write_summary_csv` over the four torsion
fields. -/
def ensure_torsion (d : Dict) : Dict :=
  List.foldl
    (fun d f =>
      setdefault d f
        (if f = "torsion_coeff" then Cell.num TORSION_COEFF else Cell.num 0))
    d
    ["torsion_raw", "torsion_coeff", "torsion_weighted", "torsion"]

/-- `write_summary_csv(output_path, summary, affinity)` up to file IO: the
header row (the field names) and the single data row, where a fixed column
missing from the summary is written as an empty field. -/
def write_summary_csv (summary : Dict) (affinity : Option ℚ) :
    List String × List Cell :=
  let s := ensure_torsion (with_affinity summary affinity)
  (field_order, field_order.map (fun k => (s k).getD Cell.blank))

/-- `main` without the argument parsing and file IO: the pipeline from the
log content to the structured CSV output (header row and data row). -/
def run_pipeline (log_path : List Char) (lines : List (List Char)) :
    Except PyError (List String × List Cell) :=
  match parse_log log_path lines with
  | .error e => .error e
  | .ok (affinity, intramolecular, raw_values) =>
    .ok (write_summary_csv (build_summary raw_values intramolecular) affinity)

/-- A line qualifies as the raw per-term value line: it matches the raw-line
pattern and its tokens are nonempty and all parse as floats.  This is the
condition under which the scanning loop breaks. -/
def qualifies (line : List Char) : Bool :=
  match rawMatch line with
  | some toks => !toks.isEmpty && (mapMFloat toks).isSome
  | none => false

/-- The parsed float values of a qualifying line. -/
def lineFloats (line : List Char) : List ℚ :=
  match rawMatch line with
  | some toks => (mapMFloat toks).getD []
  | none => []

/-- A line does not make the scanning loop raise: if it carries one of the
two labeled markers, the indexed token exists and parses as a float. -/
def lineOk (line : List Char) : Bool :=
  if AFFINITY_PREFIX.isPrefixOf line then
    match (splitWs line)[1]? with
    | some tok => (parseFloat tok).isSome
    | none => false
  else if INTRA_PREFIX.isPrefixOf line then
    match (splitWs line)[2]? with
    | some tok => (parseFloat tok).isSome
    | none => false
  else true

/-- A block of lines the scanning loop walks through completely: every line
is exception-free and non-qualifying. -/
def cleanNoQual (lines : List (List Char)) : Prop :=
  ∀ l ∈ lines, lineOk l = true ∧ qualifies l = false

/-- The spec formula for the weighted total: raw times coefficient summed
left-to-right in catalog order. -/
def spec_total_weighted (raw_values : List ℚ) : ℚ :=
  (TERM_NAMES.zip raw_values).foldl (fun s p => s + p.2 * p.1.2.2) 0

/-- Numeric values of the digit characters, for evaluating the parser on
concrete inputs by rewriting. -/
theorem digit_toNat_eval :
    '0'.toNat = 48 ∧ '1'.toNat = 49 ∧ '2'.toNat = 50 ∧ '3'.toNat = 51 ∧
    '4'.toNat = 52 ∧ '5'.toNat = 53 ∧ '6'.toNat = 54 ∧ '7'.toNat = 55 ∧
    '8'.toNat = 56 ∧ '9'.toNat = 57 := by decide

-- Sanity checks of the executable model on concrete inputs.
example : parseFloat "-7.2".data = some (-7.2 : ℚ) := by
  norm_num +decide [parseFloat, parseSign, takeDigits, parseExp,
    digit_toNat_eval]
example : parseFloat "pose".data = none := by decide
example : parseFloat "1e3".data = some (1000 : ℚ) := by
  norm_num +decide [parseFloat, parseSign, takeDigits, parseExp,
    digit_toNat_eval]
example : splitWs "  a bc ".data = ["a".data, "bc".data] := by decide
example :
    rawMatch "## 0.5 0.2".data = some ["0.5".data, "0.2".data] := by decide
example :
    parse_log "p".data ["## 0.5 0.2 1.1 -0.4 -0.9 3.0".data] =
      .ok (none, none, [0.5, 0.2, 1.1, -0.4, -0.9, 3.0]) := by
  norm_num +decide [parse_log, parseLines, scanStep, rawMatch, mapMFloat,
    parseFloat, parseSign, takeDigits, parseExp, splitWs, splitWsAux,
    TERM_NAMES, digit_toNat_eval]


/-- A line matched by the raw pattern starts with two hash marks. -/
theorem rawMatch_shape {l : List Char} {ts : List (List Char)}
    (h : rawMatch l = some ts) : ∃ c rest, l = '#' :: '#' :: c :: rest := by
  rcases l with _ | ⟨a, _ | ⟨b, _ | ⟨c, rest⟩⟩⟩
  · simp [rawMatch] at h
  · simp [rawMatch] at h
  · simp [rawMatch] at h
  · rw [show rawMatch (a :: b :: c :: rest) =
        if a = '#' ∧ b = '#' ∧ c.isWhitespace = true ∧ rest ≠ [] then
          some (splitWs (c :: rest))
        else none from rfl] at h
    split at h
    · rename_i hc
      exact ⟨c, rest, by rw [hc.1, hc.2.1]⟩
    · exact absurd h (by simp)

/-- Unpacking `qualifies`: the pattern matches and every token parses. -/
theorem qualifies_rawMatch {l : List Char} (h : qualifies l = true) :
    ∃ ts vs, rawMatch l = some ts ∧ ts.isEmpty = false ∧
      mapMFloat ts = some vs ∧ lineFloats l = vs := by
  unfold qualifies at h
  cases hr : rawMatch l with
  | none => rw [hr] at h; exact absurd h (by simp)
  | some ts =>
    rw [hr] at h
    simp only [Bool.and_eq_true, Bool.not_eq_true'] at h
    obtain ⟨hne, hsome⟩ := h
    obtain ⟨vs, hm⟩ := Option.isSome_iff_exists.mp hsome
    exact ⟨ts, vs, rfl, hne, hm, by simp [lineFloats, hr, hm]⟩

/-- A qualifying line does not carry the affinity marker. -/
theorem qualifies_not_affinity {l : List Char} (h : qualifies l = true) :
    AFFINITY_PREFIX.isPrefixOf l = false := by
  obtain ⟨ts, vs, hr, -, -, -⟩ := qualifies_rawMatch h
  obtain ⟨c, rest, rfl⟩ := rawMatch_shape hr
  rfl

/-- A qualifying line does not carry the intramolecular marker. -/
theorem qualifies_not_intra {l : List Char} (h : qualifies l = true) :
    INTRA_PREFIX.isPrefixOf l = false := by
  obtain ⟨ts, vs, hr, -, -, -⟩ := qualifies_rawMatch h
  obtain ⟨c, rest, rfl⟩ := rawMatch_shape hr
  rfl

/-- On a qualifying line the loop body breaks with the parsed floats,
leaving the accumulators untouched. -/
theorem scanStep_brk {l : List Char} (hq : qualifies l = true)
    (a i : Option ℚ) : scanStep l a i = .brk (lineFloats l) := by
  obtain ⟨ts, vs, hr, hne, hm, hlf⟩ := qualifies_rawMatch hq
  simp [scanStep, qualifies_not_affinity hq, qualifies_not_intra hq,
    hr, hm, hne, hlf]

/-- On an exception-free non-qualifying line the loop body continues; the
accumulators change only when the corresponding marker is present. -/
theorem scanStep_skip {l : List Char} (hok : lineOk l = true)
    (hnq : qualifies l = false) (a i : Option ℚ) :
    ∃ a' i', scanStep l a i = .cont a' i' ∧
      (AFFINITY_PREFIX.isPrefixOf l = false → a' = a) ∧
      (INTRA_PREFIX.isPrefixOf l = false → i' = i) := by
  by_cases haff : AFFINITY_PREFIX.isPrefixOf l = true
  · have hok1 : (match (splitWs l)[1]? with
        | some tok => (parseFloat tok).isSome
        | none => false) = true := by
      simpa [lineOk, haff] using hok
    cases hg : (splitWs l)[1]? with
    | none => simp [hg] at hok1
    | some tok =>
      cases hp : parseFloat tok with
      | none => simp [hg, hp] at hok1
      | some v =>
        refine ⟨some v, i, by simp [scanStep, haff, hg, hp], ?_, fun _ => rfl⟩
        intro hfalse
        rw [haff] at hfalse
        exact absurd hfalse (by simp)
  · have haff' : AFFINITY_PREFIX.isPrefixOf l = false := by
      cases hb : AFFINITY_PREFIX.isPrefixOf l
      · rfl
      · exact absurd hb haff
    by_cases hintra : INTRA_PREFIX.isPrefixOf l = true
    · have hok1 : (match (splitWs l)[2]? with
          | some tok => (parseFloat tok).isSome
          | none => false) = true := by
        simpa [lineOk, haff', hintra] using hok
      cases hg : (splitWs l)[2]? with
      | none => simp [hg] at hok1
      | some tok =>
        cases hp : parseFloat tok with
        | none => simp [hg, hp] at hok1
        | some v =>
          refine ⟨a, some v, by simp [scanStep, haff', hintra, hg, hp],
            fun _ => rfl, ?_⟩
          intro hfalse
          rw [hintra] at hfalse
          exact absurd hfalse (by simp)
    · have hintra' : INTRA_PREFIX.isPrefixOf l = false := by
        cases hb : INTRA_PREFIX.isPrefixOf l
        · rfl
        · exact absurd hb hintra
      cases hr : rawMatch l with
      | none =>
        exact ⟨a, i, by simp [scanStep, haff', hintra', hr],
          fun _ => rfl, fun _ => rfl⟩
      | some ts =>
        cases hm : mapMFloat ts with
        | none =>
          exact ⟨a, i, by simp [scanStep, haff', hintra', hr, hm],
            fun _ => rfl, fun _ => rfl⟩
        | some vs =>
          have hemp : ts.isEmpty = true := by
            unfold qualifies at hnq
            simp only [hr, hm] at hnq
            simpa using hnq
          exact ⟨a, i, by simp [scanStep, haff', hintra', hr, hm, hemp],
            fun _ => rfl, fun _ => rfl⟩

/-- Scanning stops at the first qualifying line: lines after it are never
examined. -/
theorem parseLines_stop {q : List Char} (hq : qualifies q = true)
    (post pre : List (List Char)) (a i : Option ℚ) :
    parseLines (pre ++ q :: post) a i = parseLines (pre ++ [q]) a i := by
  induction pre generalizing a i with
  | nil =>
    simp only [List.nil_append]
    unfold parseLines
    rw [scanStep_brk hq]
  | cons p ps ih =>
    simp only [List.cons_append]
    unfold parseLines
    cases hs : scanStep p a i with
    | err e => rfl
    | cont a' i' => exact ih a' i'
    | brk vs => rfl

/-- Scanning a clean block with no qualifying line ends with no raw values;
an accumulator is left untouched when its marker never occurs. -/
theorem parseLines_no_qual {lines : List (List Char)} (h : cleanNoQual lines)
    (a i : Option ℚ) :
    ∃ a' i', parseLines lines a i = .ok (a', i', none) ∧
      ((∀ l ∈ lines, AFFINITY_PREFIX.isPrefixOf l = false) → a' = a) ∧
      ((∀ l ∈ lines, INTRA_PREFIX.isPrefixOf l = false) → i' = i) := by
  induction lines generalizing a i with
  | nil => exact ⟨a, i, rfl, fun _ => rfl, fun _ => rfl⟩
  | cons p ps ih =>
    have hp := h p (by simp)
    have hps : cleanNoQual ps := fun l hl => h l (by simp [hl])
    obtain ⟨a1, i1, hstep, hsa, hsi⟩ := scanStep_skip hp.1 hp.2 a i
    obtain ⟨a', i', hrest, hra, hri⟩ := ih hps a1 i1
    refine ⟨a', i', ?_, ?_, ?_⟩
    · unfold parseLines
      rw [hstep]
      exact hrest
    · intro hall
      have h1 : a1 = a := hsa (hall p (by simp))
      rw [hra fun l hl => hall l (by simp [hl]), h1]
    · intro hall
      have h1 : i1 = i := hsi (hall p (by simp))
      rw [hri fun l hl => hall l (by simp [hl]), h1]

/-- Scanning a clean block followed by a qualifying line breaks with that
line's floats; an accumulator is untouched when its marker never occurred
before the break. -/
theorem parseLines_break {pre : List (List Char)} {q : List Char}
    (hpre : cleanNoQual pre) (hq : qualifies q = true) (a i : Option ℚ) :
    ∃ a' i', parseLines (pre ++ [q]) a i = .ok (a', i', some (lineFloats q)) ∧
      ((∀ l ∈ pre, AFFINITY_PREFIX.isPrefixOf l = false) → a' = a) ∧
      ((∀ l ∈ pre, INTRA_PREFIX.isPrefixOf l = false) → i' = i) := by
  induction pre generalizing a i with
  | nil =>
    refine ⟨a, i, ?_, fun _ => rfl, fun _ => rfl⟩
    simp only [List.nil_append]
    unfold parseLines
    rw [scanStep_brk hq]
  | cons p ps ih =>
    have hp := hpre p (by simp)
    have hps : cleanNoQual ps := fun l hl => hpre l (by simp [hl])
    obtain ⟨a1, i1, hstep, hsa, hsi⟩ := scanStep_skip hp.1 hp.2 a i
    obtain ⟨a', i', hrest, hra, hri⟩ := ih hps a1 i1
    refine ⟨a', i', ?_, ?_, ?_⟩
    · simp only [List.cons_append]
      unfold parseLines
      rw [hstep]
      exact hrest
    · intro hall
      have h1 : a1 = a := hsa (hall p (by simp))
      rw [hra fun l hl => hall l (by simp [hl]), h1]
    · intro hall
      have h1 : i1 = i := hsi (hall p (by simp))
      rw [hri fun l hl => hall l (by simp [hl]), h1]

/-- `parse_log` on a log whose lines are clean and never qualify: the
malformed-log error. -/
theorem parse_log_no_qual {path : List Char} {lines : List (List Char)}
    (h : cleanNoQual lines) :
    parse_log path lines = .error (.malformedLog (malformed_message path)) := by
  obtain ⟨a', i', hscan, -, -⟩ := parseLines_no_qual h none none
  unfold parse_log
  rw [hscan]

/-- `parse_log` when the first qualifying line has at least as many tokens
as the catalog: success with the first-six floats, and an output component
is absent when its marker never occurred before the break. -/
theorem parse_log_break_ok {path : List Char} {pre : List (List Char)}
    {q : List Char} (post : List (List Char))
    (hpre : cleanNoQual pre) (hq : qualifies q = true)
    (hlen : TERM_NAMES.length ≤ (lineFloats q).length) :
    ∃ a i,
      parse_log path (pre ++ q :: post) =
        .ok (a, i, (lineFloats q).take TERM_NAMES.length) ∧
      ((∀ l ∈ pre, AFFINITY_PREFIX.isPrefixOf l = false) → a = none) ∧
      ((∀ l ∈ pre, INTRA_PREFIX.isPrefixOf l = false) → i = none) := by
  obtain ⟨a', i', hscan, hsa, hsi⟩ := parseLines_break hpre hq none none
  refine ⟨a', i', ?_, hsa, hsi⟩
  unfold parse_log
  rw [parseLines_stop hq, hscan]
  simp [Nat.not_lt.mpr hlen]

/-- `parse_log` when the first qualifying line is short: the malformed-log
error. -/
theorem parse_log_break_err {path : List Char} {pre : List (List Char)}
    {q : List Char} (post : List (List Char))
    (hpre : cleanNoQual pre) (hq : qualifies q = true)
    (hlen : (lineFloats q).length < TERM_NAMES.length) :
    parse_log path (pre ++ q :: post) =
      .error (.malformedLog (malformed_message path)) := by
  obtain ⟨a', i', hscan, -, -⟩ := parseLines_break hpre hq none none
  unfold parse_log
  rw [parseLines_stop hq, hscan]
  simp [hlen]

/-- Every list of lines either has no qualifying line, or splits at its
first qualifying line. -/
theorem first_qual_split (lines : List (List Char)) :
    (∀ l ∈ lines, qualifies l = false) ∨
    ∃ pre q post, lines = pre ++ q :: post ∧
      (∀ l ∈ pre, qualifies l = false) ∧ qualifies q = true := by
  induction lines with
  | nil => exact Or.inl (by simp)
  | cons l ls ih =>
    by_cases hl : qualifies l = true
    · exact Or.inr ⟨[], l, ls, rfl, by simp, hl⟩
    · have hl' : qualifies l = false := by
        cases hb : qualifies l
        · rfl
        · exact absurd hb hl
      cases ih with
      | inl h =>
        refine Or.inl fun x hx => ?_
        rcases List.mem_cons.mp hx with hx | hx
        · rw [hx]; exact hl'
        · exact h x hx
      | inr h =>
        obtain ⟨pre, q, post, rfl, hpre, hq⟩ := h
        refine Or.inr ⟨l :: pre, q, post, rfl, ?_, hq⟩
        intro x hx
        rcases List.mem_cons.mp hx with hx | hx
        · rw [hx]; exact hl'
        · exact hpre x hx

/-- The malformed-log message contains the log path. -/
theorem path_infix_message (p : List Char) :
    List.IsInfix p (malformed_message p) := by
  refine ⟨"Could not locate all raw term values in log ".data ++ [SQ],
    ([SQ] ++ ". Please ensure the log was generated with ".data ++ [SQ]) ++
      SCORE_ONLY_FLAG ++ [SQ, '.'], ?_⟩
  simp [malformed_message, List.append_assoc]

/-- The malformed-log message contains the score-only hint. -/
theorem hint_infix_message (p : List Char) :
    List.IsInfix SCORE_ONLY_FLAG (malformed_message p) := by
  refine ⟨("Could not locate all raw term values in log ".data ++ [SQ]) ++
      p ++ ([SQ] ++ ". Please ensure the log was generated with ".data ++ [SQ]),
    [SQ, '.'], ?_⟩
  simp [malformed_message, List.append_assoc]

/-- A list of length six is literally a six-element list. -/
theorem length_eq_six {α : Type} {l : List α} (h : l.length = 6) :
    ∃ a b c d e f, l = [a, b, c, d, e, f] := by
  rcases l with _ | ⟨a, _ | ⟨b, _ | ⟨c, _ | ⟨d, _ | ⟨e, _ | ⟨f, _ | ⟨g, t⟩⟩⟩⟩⟩⟩⟩ <;>
    simp only [List.length_cons, List.length_nil] at h <;> try omega
  exact ⟨a, b, c, d, e, f, rfl⟩

/-- C3: provided every scanned line parses its labeled tokens cleanly,
`parse_log` raises the malformed-log error exactly when no line qualifies
as the raw value line or the first qualifying line has fewer than
`len(TERM_NAMES)` tokens; the message contains the log path and the
score-only hint. -/
theorem parse_log_malformed_iff (path : List Char) (lines : List (List Char))
    (hclean : ∀ l ∈ lines, lineOk l = true) :
    (parse_log path lines =
        .error (.malformedLog (malformed_message path)) ↔
      (∀ l ∈ lines, qualifies l = false) ∨
      ∃ pre q post, lines = pre ++ q :: post ∧
        (∀ l ∈ pre, qualifies l = false) ∧ qualifies q = true ∧
        (lineFloats q).length < TERM_NAMES.length) ∧
    List.IsInfix path (malformed_message path) ∧
    List.IsInfix SCORE_ONLY_FLAG (malformed_message path) := by
  refine ⟨⟨?_, ?_⟩, path_infix_message path, hint_infix_message path⟩
  · intro herr
    rcases first_qual_split lines with hno | ⟨pre, q, post, rfl, hpre, hq⟩
    · exact Or.inl hno
    · have hpre' : cleanNoQual pre := fun l hl =>
        ⟨hclean l (by simp [hl]), hpre l hl⟩
      by_cases hlen : (lineFloats q).length < TERM_NAMES.length
      · exact Or.inr ⟨pre, q, post, rfl, hpre, hq, hlen⟩
      · obtain ⟨a, i, hok, -, -⟩ :=
          parse_log_break_ok post hpre' hq (Nat.not_lt.mp hlen)
        rw [hok] at herr
        exact absurd herr (by simp)
  · intro hcond
    rcases hcond with hno | ⟨pre, q, post, rfl, hpre, hq, hlen⟩
    · exact parse_log_no_qual fun l hl => ⟨hclean l hl, hno l hl⟩
    · exact parse_log_break_err post
        (fun l hl => ⟨hclean l (by simp [hl]), hpre l hl⟩) hq hlen

/-- C3 witness: the iff at a concrete one-line log with no qualifying line. -/
theorem parse_log_malformed_iff_witness :
    (parse_log "log.txt".data ["hello".data] =
        .error (.malformedLog (malformed_message "log.txt".data)) ↔
      (∀ l ∈ ["hello".data], qualifies l = false) ∨
      ∃ pre q post, ["hello".data] = pre ++ q :: post ∧
        (∀ l ∈ pre, qualifies l = false) ∧ qualifies q = true ∧
        (lineFloats q).length < TERM_NAMES.length) ∧
    List.IsInfix "log.txt".data (malformed_message "log.txt".data) ∧
    List.IsInfix SCORE_ONLY_FLAG (malformed_message "log.txt".data) :=
  parse_log_malformed_iff "log.txt".data ["hello".data] (by decide)

/-- C5: when the first qualifying raw line has more than `len(TERM_NAMES)`
tokens, `parse_log` returns exactly the first six parsed floats; the extra
tokens do not influence the returned tuple. -/
theorem parse_log_truncates_extra_tokens (path : List Char)
    (pre post : List (List Char)) (q : List Char)
    (hpre : cleanNoQual pre) (hq : qualifies q = true)
    (hlen : TERM_NAMES.length < (lineFloats q).length) :
    ∃ a i, parse_log path (pre ++ q :: post) =
      .ok (a, i, (lineFloats q).take TERM_NAMES.length) := by
  obtain ⟨a, i, hok, -, -⟩ := parse_log_break_ok post hpre hq (le_of_lt hlen)
  exact ⟨a, i, hok⟩

/-- C5 witness: a concrete raw line with seven tokens. -/
theorem parse_log_truncates_extra_tokens_witness :
    ∃ a i, parse_log "log.txt".data ([] ++ "## 1 2 3 4 5 6 7".data :: []) =
      .ok (a, i, (lineFloats "## 1 2 3 4 5 6 7".data).take TERM_NAMES.length) :=
  parse_log_truncates_extra_tokens "log.txt".data [] [] "## 1 2 3 4 5 6 7".data
    (fun l hl => absurd hl (List.not_mem_nil l)) (by decide) (by decide)

/-- C6 counterexample: with two qualifying lines where the first is short,
`parse_log` raises the malformed-log error instead of returning the first
line's parsed values. -/
theorem parse_log_first_match_counterexample :
    qualifies "## 1 2".data = true ∧
    qualifies "## 1 2 3 4 5 6".data = true ∧
    parse_log "log.txt".data ["## 1 2".data, "## 1 2 3 4 5 6".data] =
      .error (.malformedLog (malformed_message "log.txt".data)) :=
  ⟨by decide, by decide, rfl⟩

/-- C6 amended: the scan stops at the first qualifying line and later
qualifying lines are ignored; the result is computed from the first
qualifying line alone — its first six floats when it has at least six
tokens, the malformed-log error when it has fewer. -/
theorem parse_log_first_match_wins (path : List Char)
    (pre post : List (List Char)) (q : List Char)
    (hpre : cleanNoQual pre) (hq : qualifies q = true) :
    parse_log path (pre ++ q :: post) = parse_log path (pre ++ [q]) ∧
    (TERM_NAMES.length ≤ (lineFloats q).length →
      ∃ a i, parse_log path (pre ++ q :: post) =
        .ok (a, i, (lineFloats q).take TERM_NAMES.length)) ∧
    ((lineFloats q).length < TERM_NAMES.length →
      parse_log path (pre ++ q :: post) =
        .error (.malformedLog (malformed_message path))) := by
  refine ⟨?_, ?_, ?_⟩
  · unfold parse_log
    rw [parseLines_stop hq]
  · intro hlen
    obtain ⟨a, i, hok, -, -⟩ := parse_log_break_ok post hpre hq hlen
    exact ⟨a, i, hok⟩
  · intro hlen
    exact parse_log_break_err post hpre hq hlen

/-- C6 witness: two qualifying lines, the first with six tokens. -/
theorem parse_log_first_match_wins_witness :
    parse_log "log.txt".data
        ([] ++ "## 1 2 3 4 5 6".data :: ["## 9 9 9 9 9 9".data]) =
      parse_log "log.txt".data ([] ++ ["## 1 2 3 4 5 6".data]) ∧
    (TERM_NAMES.length ≤ (lineFloats "## 1 2 3 4 5 6".data).length →
      ∃ a i, parse_log "log.txt".data
          ([] ++ "## 1 2 3 4 5 6".data :: ["## 9 9 9 9 9 9".data]) =
        .ok (a, i,
          (lineFloats "## 1 2 3 4 5 6".data).take TERM_NAMES.length)) ∧
    ((lineFloats "## 1 2 3 4 5 6".data).length < TERM_NAMES.length →
      parse_log "log.txt".data
          ([] ++ "## 1 2 3 4 5 6".data :: ["## 9 9 9 9 9 9".data]) =
        .error (.malformedLog (malformed_message "log.txt".data))) :=
  parse_log_first_match_wins "log.txt".data [] ["## 9 9 9 9 9 9".data]
    "## 1 2 3 4 5 6".data (fun l hl => absurd hl (List.not_mem_nil l))
    (by decide)

/-- C8: with a qualifying raw line of at least six tokens, `parse_log`
succeeds even when no affinity or no intramolecular marker line exists; the
corresponding component is returned as absent and no error is raised. -/
theorem parse_log_markers_optional (path : List Char)
    (pre post : List (List Char)) (q : List Char)
    (hpre : cleanNoQual pre) (hq : qualifies q = true)
    (hlen : TERM_NAMES.length ≤ (lineFloats q).length) :
    (∃ a i, parse_log path (pre ++ q :: post) =
      .ok (a, i, (lineFloats q).take TERM_NAMES.length)) ∧
    ((∀ l ∈ pre ++ q :: post, AFFINITY_PREFIX.isPrefixOf l = false) →
      ∃ i, parse_log path (pre ++ q :: post) =
        .ok (none, i, (lineFloats q).take TERM_NAMES.length)) ∧
    ((∀ l ∈ pre ++ q :: post, INTRA_PREFIX.isPrefixOf l = false) →
      ∃ a, parse_log path (pre ++ q :: post) =
        .ok (a, none, (lineFloats q).take TERM_NAMES.length)) := by
  obtain ⟨a, i, hok, hna, hni⟩ := parse_log_break_ok post hpre hq hlen
  refine ⟨⟨a, i, hok⟩, ?_, ?_⟩
  · intro hall
    have ha : a = none := hna fun l hl => hall l (by simp [hl])
    exact ⟨i, by rw [← ha]; exact hok⟩
  · intro hall
    have hi : i = none := hni fun l hl => hall l (by simp [hl])
    exact ⟨a, by rw [← hi]; exact hok⟩

/-- C8 witness: a one-line log holding only the raw value line. -/
theorem parse_log_markers_optional_witness :
    (∃ a i, parse_log "log.txt".data ([] ++ "## 1 2 3 4 5 6".data :: []) =
      .ok (a, i,
        (lineFloats "## 1 2 3 4 5 6".data).take TERM_NAMES.length)) ∧
    ((∀ l ∈ ([] ++ "## 1 2 3 4 5 6".data :: []),
        AFFINITY_PREFIX.isPrefixOf l = false) →
      ∃ i, parse_log "log.txt".data ([] ++ "## 1 2 3 4 5 6".data :: []) =
        .ok (none, i,
          (lineFloats "## 1 2 3 4 5 6".data).take TERM_NAMES.length)) ∧
    ((∀ l ∈ ([] ++ "## 1 2 3 4 5 6".data :: []),
        INTRA_PREFIX.isPrefixOf l = false) →
      ∃ a, parse_log "log.txt".data ([] ++ "## 1 2 3 4 5 6".data :: []) =
        .ok (a, none,
          (lineFloats "## 1 2 3 4 5 6".data).take TERM_NAMES.length)) :=
  parse_log_markers_optional "log.txt".data [] [] "## 1 2 3 4 5 6".data
    (fun l hl => absurd hl (List.not_mem_nil l)) (by decide) (by decide)

/-- C10: `parse_log` never examines lines after the first qualifying raw
line; marker lines occurring only after it are lost, so the markers are not
order-independent: with no marker before the break the components come back
absent even if markers occur later. -/
theorem parse_log_stops_at_first_break (path : List Char)
    (pre post : List (List Char)) (q : List Char)
    (hpre : cleanNoQual pre) (hq : qualifies q = true)
    (hlen : TERM_NAMES.length ≤ (lineFloats q).length)
    (hnoaff : ∀ l ∈ pre, AFFINITY_PREFIX.isPrefixOf l = false)
    (hnointra : ∀ l ∈ pre, INTRA_PREFIX.isPrefixOf l = false) :
    parse_log path (pre ++ q :: post) = parse_log path (pre ++ [q]) ∧
    parse_log path (pre ++ q :: post) =
      .ok (none, none, (lineFloats q).take TERM_NAMES.length) := by
  obtain ⟨a, i, hok, hna, hni⟩ := parse_log_break_ok post hpre hq hlen
  refine ⟨?_, ?_⟩
  · unfold parse_log
    rw [parseLines_stop hq]
  · rw [hok, hna hnoaff, hni hnointra]

/-- C10 witness: the affinity marker appears only after the raw line and is
ignored; the affinity component comes back absent. -/
theorem parse_log_stops_at_first_break_witness :
    parse_log "log.txt".data
        ([] ++ "## 1 2 3 4 5 6".data :: ["Affinity: -7.2 kcal/mol".data]) =
      parse_log "log.txt".data ([] ++ ["## 1 2 3 4 5 6".data]) ∧
    parse_log "log.txt".data
        ([] ++ "## 1 2 3 4 5 6".data :: ["Affinity: -7.2 kcal/mol".data]) =
      .ok (none, none,
        (lineFloats "## 1 2 3 4 5 6".data).take TERM_NAMES.length) :=
  parse_log_stops_at_first_break "log.txt".data [] ["Affinity: -7.2 kcal/mol".data]
    "## 1 2 3 4 5 6".data (fun l hl => absurd hl (List.not_mem_nil l))
    (by decide) (by decide)
    (fun l hl => absurd hl (List.not_mem_nil l))
    (fun l hl => absurd hl (List.not_mem_nil l))

/-- C4: for a six-value raw list, the summary totals satisfy
`SMINA_Total_Weighted` = left-to-right sum of raw times coefficient and
`SMINA_Total_Raw` = sum of the raws, and each term's weighted entry and
bare alias both equal raw times coefficient. -/
theorem build_summary_invariants (raw_values : List ℚ)
    (intramolecular : Option ℚ)
    (h : raw_values.length = TERM_NAMES.length) :
    build_summary raw_values intramolecular "SMINA_Total_Weighted" =
      some (.num (spec_total_weighted raw_values)) ∧
    build_summary raw_values intramolecular "SMINA_Total_Raw" =
      some (.num raw_values.sum) ∧
    (build_summary raw_values intramolecular "gauss1_weighted" =
        some (.num (raw_values.getD 0 0 * (-0.035579))) ∧
      build_summary raw_values intramolecular "gauss1" =
        some (.num (raw_values.getD 0 0 * (-0.035579)))) ∧
    (build_summary raw_values intramolecular "gauss2_weighted" =
        some (.num (raw_values.getD 1 0 * (-0.005156))) ∧
      build_summary raw_values intramolecular "gauss2" =
        some (.num (raw_values.getD 1 0 * (-0.005156)))) ∧
    (build_summary raw_values intramolecular "repulsion_weighted" =
        some (.num (raw_values.getD 2 0 * 0.840245)) ∧
      build_summary raw_values intramolecular "repulsion" =
        some (.num (raw_values.getD 2 0 * 0.840245))) ∧
    (build_summary raw_values intramolecular "hydrophobic_weighted" =
        some (.num (raw_values.getD 3 0 * (-0.035069))) ∧
      build_summary raw_values intramolecular "hydrophobic" =
        some (.num (raw_values.getD 3 0 * (-0.035069)))) ∧
    (build_summary raw_values intramolecular "hydrogen_bond_weighted" =
        some (.num (raw_values.getD 4 0 * (-0.587439))) ∧
      build_summary raw_values intramolecular "hydrogen_bond" =
        some (.num (raw_values.getD 4 0 * (-0.587439)))) ∧
    (build_summary raw_values intramolecular "torsion_weighted" =
        some (.num (raw_values.getD 5 0 * 1.923)) ∧
      build_summary raw_values intramolecular "torsion" =
        some (.num (raw_values.getD 5 0 * 1.923))) := by
  have h6 : raw_values.length = 6 := by simpa [TERM_NAMES] using h
  obtain ⟨r1, r2, r3, r4, r5, r6, rfl⟩ := length_eq_six h6
  have hsum : ([r1, r2, r3, r4, r5, r6] : List ℚ).sum =
      ((((((0 : ℚ) + r1) + r2) + r3) + r4) + r5) + r6 := by
    simp only [List.sum_cons, List.sum_nil]
    ring
  refine ⟨rfl, ?_, ⟨rfl, rfl⟩, ⟨rfl, rfl⟩, ⟨rfl, rfl⟩, ⟨rfl, rfl⟩,
    ⟨rfl, rfl⟩, ⟨rfl, rfl⟩⟩
  rw [hsum]
  rfl

/-- C4 witness: the invariants at the concrete raw list `[1, 2, 3, 4, 5, 6]`. -/
theorem build_summary_invariants_witness :
    build_summary [1, 2, 3, 4, 5, 6] none "SMINA_Total_Weighted" =
      some (.num (spec_total_weighted [1, 2, 3, 4, 5, 6])) ∧
    build_summary [1, 2, 3, 4, 5, 6] none "SMINA_Total_Raw" =
      some (.num ([1, 2, 3, 4, 5, 6] : List ℚ).sum) ∧
    (build_summary [1, 2, 3, 4, 5, 6] none "gauss1_weighted" =
        some (.num (([1, 2, 3, 4, 5, 6] : List ℚ).getD 0 0 * (-0.035579))) ∧
      build_summary [1, 2, 3, 4, 5, 6] none "gauss1" =
        some (.num (([1, 2, 3, 4, 5, 6] : List ℚ).getD 0 0 * (-0.035579)))) ∧
    (build_summary [1, 2, 3, 4, 5, 6] none "gauss2_weighted" =
        some (.num (([1, 2, 3, 4, 5, 6] : List ℚ).getD 1 0 * (-0.005156))) ∧
      build_summary [1, 2, 3, 4, 5, 6] none "gauss2" =
        some (.num (([1, 2, 3, 4, 5, 6] : List ℚ).getD 1 0 * (-0.005156)))) ∧
    (build_summary [1, 2, 3, 4, 5, 6] none "repulsion_weighted" =
        some (.num (([1, 2, 3, 4, 5, 6] : List ℚ).getD 2 0 * 0.840245)) ∧
      build_summary [1, 2, 3, 4, 5, 6] none "repulsion" =
        some (.num (([1, 2, 3, 4, 5, 6] : List ℚ).getD 2 0 * 0.840245))) ∧
    (build_summary [1, 2, 3, 4, 5, 6] none "hydrophobic_weighted" =
        some (.num (([1, 2, 3, 4, 5, 6] : List ℚ).getD 3 0 * (-0.035069))) ∧
      build_summary [1, 2, 3, 4, 5, 6] none "hydrophobic" =
        some (.num (([1, 2, 3, 4, 5, 6] : List ℚ).getD 3 0 * (-0.035069)))) ∧
    (build_summary [1, 2, 3, 4, 5, 6] none "hydrogen_bond_weighted" =
        some (.num (([1, 2, 3, 4, 5, 6] : List ℚ).getD 4 0 * (-0.587439))) ∧
      build_summary [1, 2, 3, 4, 5, 6] none "hydrogen_bond" =
        some (.num (([1, 2, 3, 4, 5, 6] : List ℚ).getD 4 0 * (-0.587439)))) ∧
    (build_summary [1, 2, 3, 4, 5, 6] none "torsion_weighted" =
        some (.num (([1, 2, 3, 4, 5, 6] : List ℚ).getD 5 0 * 1.923)) ∧
      build_summary [1, 2, 3, 4, 5, 6] none "torsion" =
        some (.num (([1, 2, 3, 4, 5, 6] : List ℚ).getD 5 0 * 1.923))) :=
  build_summary_invariants [1, 2, 3, 4, 5, 6] none rfl

/-- C7: before the row is serialized, each absent torsion field is defaulted
(`0.0` for raw, weighted and the bare alias; the catalog torsion coefficient
for `torsion_coeff`) while present fields are kept; the row is built from the
defaulted mapping. -/
theorem torsion_defaulting (summary : Dict) (affinity : Option ℚ) :
    ensure_torsion (with_affinity summary affinity) "torsion_raw" =
      some ((summary "torsion_raw").getD (Cell.num 0)) ∧
    ensure_torsion (with_affinity summary affinity) "torsion_coeff" =
      some ((summary "torsion_coeff").getD (Cell.num 1.923)) ∧
    ensure_torsion (with_affinity summary affinity) "torsion_weighted" =
      some ((summary "torsion_weighted").getD (Cell.num 0)) ∧
    ensure_torsion (with_affinity summary affinity) "torsion" =
      some ((summary "torsion").getD (Cell.num 0)) ∧
    write_summary_csv summary affinity =
      (field_order, field_order.map
        (fun k =>
          (ensure_torsion (with_affinity summary affinity) k).getD
            Cell.blank)) :=
  ⟨rfl, rfl, rfl, rfl, rfl⟩

/-- C2 counterexample: the header written by `write_summary_csv` has 32
columns, not 30, and carries no bare `torsion` alias column. -/
theorem header_thirty_columns_counterexample :
    (write_summary_csv emptyDict none).1.length = 32 ∧
    (write_summary_csv emptyDict none).1.length ≠ 30 ∧
    "torsion" ∉ (write_summary_csv emptyDict none).1 :=
  ⟨rfl, by decide, by decide⟩

/-- C2 amended: for every summary, the header row contains exactly these 32
fixed column names in this fixed order — intramolecular energy, the two
totals, raw/coeff/weighted per catalog term, the five per-atom placeholders,
five bare term aliases (torsion has no bare-alias column), and `Affinity`
last. -/
theorem write_summary_header (summary : Dict) (affinity : Option ℚ) :
    (write_summary_csv summary affinity).1 =
      ["SMINA_Intramolecular", "SMINA_Total_Raw", "SMINA_Total_Weighted",
       "gauss1_raw", "gauss1_coeff", "gauss1_weighted",
       "gauss2_raw", "gauss2_coeff", "gauss2_weighted",
       "repulsion_raw", "repulsion_coeff", "repulsion_weighted",
       "hydrophobic_raw", "hydrophobic_coeff", "hydrophobic_weighted",
       "hydrogen_bond_raw", "hydrogen_bond_coeff", "hydrogen_bond_weighted",
       "torsion_raw", "torsion_coeff", "torsion_weighted",
       "gauss1_per_atom", "gauss2_per_atom", "repulsion_per_atom",
       "hydrophobic_per_atom", "hydrogen_bond_per_atom",
       "gauss1", "gauss2", "repulsion", "hydrophobic", "hydrogen_bond",
       "Affinity"] ∧
    (write_summary_csv summary affinity).1.length = 32 ∧
    (write_summary_csv summary affinity).1.getLast? = some "Affinity" :=
  ⟨rfl, rfl, rfl⟩

/-- C1 counterexample: on the spec's concrete scenario log the intramolecular
line's third token is `pose`, so `parse_log` raises the float-conversion
`ValueError` instead of producing the claimed summary. -/
theorem concrete_scenario_counterexample :
    parse_log "log.txt".data
      ["Affinity: -7.2 kcal/mol".data,
       "Intramolecular energy: pose 1 -0.3".data,
       "## 0.5 0.2 1.1 -0.4 -0.9 3.0".data] =
      .error (.valueError "pose".data) ∧
    run_pipeline "log.txt".data
      ["Affinity: -7.2 kcal/mol".data,
       "Intramolecular energy: pose 1 -0.3".data,
       "## 0.5 0.2 1.1 -0.4 -0.9 3.0".data] =
      .error (.valueError "pose".data) :=
  ⟨rfl, rfl⟩

/-- C1 amended: on the scenario log with the intramolecular line
`Intramolecular energy: -0.3` (so that its index-2 token is the number),
`parse_log` yields affinity `-7.2`, intramolecular `-0.3` and the six raw
values, and `build_summary` yields the claimed entries, with the weighted
total equal to the sum of raw times coefficient over the catalog. -/
theorem concrete_scenario_amended :
    parse_log "log.txt".data
      ["Affinity: -7.2 kcal/mol".data,
       "Intramolecular energy: -0.3".data,
       "## 0.5 0.2 1.1 -0.4 -0.9 3.0".data] =
      .ok (some (-7.2), some (-0.3), [0.5, 0.2, 1.1, -0.4, -0.9, 3.0]) ∧
    build_summary [0.5, 0.2, 1.1, -0.4, -0.9, 3.0] (some (-0.3))
      "SMINA_Intramolecular" = some (.num (-0.3)) ∧
    build_summary [0.5, 0.2, 1.1, -0.4, -0.9, 3.0] (some (-0.3))
      "gauss1_raw" = some (.num 0.5) ∧
    build_summary [0.5, 0.2, 1.1, -0.4, -0.9, 3.0] (some (-0.3))
      "gauss1_weighted" = some (.num (-0.0177895)) ∧
    build_summary [0.5, 0.2, 1.1, -0.4, -0.9, 3.0] (some (-0.3))
      "SMINA_Total_Raw" = some (.num 3.5) ∧
    build_summary [0.5, 0.2, 1.1, -0.4, -0.9, 3.0] (some (-0.3))
      "SMINA_Total_Weighted" =
      some (.num (0.5 * (-0.035579) + 0.2 * (-0.005156) + 1.1 * 0.840245 +
        (-0.4) * (-0.035069) + (-0.9) * (-0.587439) + 3.0 * 1.923)) := by
  refine ⟨?_, rfl, rfl, ?_, ?_, ?_⟩
  · norm_num +decide [parse_log, parseLines, scanStep, rawMatch, mapMFloat,
      parseFloat, parseSign, takeDigits, parseExp, splitWs, splitWsAux,
      TERM_NAMES, digit_toNat_eval]
  · show some (Cell.num ((0.5 : ℚ) * (-0.035579))) = some (.num (-0.0177895))
    norm_num
  · show some (Cell.num (List.foldl (fun s x => s + x) 0
      ([0.5, 0.2, 1.1, -0.4, -0.9, 3.0] : List ℚ))) = some (.num 3.5)
    norm_num
  · show some (Cell.num (spec_total_weighted
      [0.5, 0.2, 1.1, -0.4, -0.9, 3.0])) =
      some (.num (0.5 * (-0.035579) + 0.2 * (-0.005156) + 1.1 * 0.840245 +
        (-0.4) * (-0.035069) + (-0.9) * (-0.587439) + 3.0 * 1.923))
    norm_num [spec_total_weighted, TERM_NAMES]

/-- C9: the pipeline is deterministic — its structured CSV output (header
row and data row) is a function of the input log content alone; identical
inputs give identical outputs. -/
theorem pipeline_deterministic (p1 p2 : List Char)
    (l1 l2 : List (List Char)) (hp : p1 = p2) (hl : l1 = l2) :
    run_pipeline p1 l1 = run_pipeline p2 l2 := by
  rw [hp, hl]

/-- C9 witness: determinism at a concrete log. -/
theorem pipeline_deterministic_witness :
    run_pipeline "log.txt".data ["## 1 2 3 4 5 6".data] =
      run_pipeline "log.txt".data ["## 1 2 3 4 5 6".data] :=
  pipeline_deterministic "log.txt".data "log.txt".data
    ["## 1 2 3 4 5 6".data] ["## 1 2 3 4 5 6".data] rfl rfl

/-- C3 counterexample: on a log with no qualifying raw line but a malformed
affinity line, `parse_log` raises the generic float-conversion error, not
the malformed-log error, although the no-qualifying-line condition holds —
the stated iff needs the proviso that labeled lines parse cleanly. -/
theorem malformed_iff_needs_clean_lines :
    (∀ l ∈ ["Affinity: x".data], qualifies l = false) ∧
    parse_log "log.txt".data ["Affinity: x".data] =
      .error (.valueError "x".data) ∧
    parse_log "log.txt".data ["Affinity: x".data] ≠
      .error (.malformedLog (malformed_message "log.txt".data)) := by
  refine ⟨by decide, rfl, ?_⟩
  intro h
  rw [show parse_log "log.txt".data ["Affinity: x".data] =
      .error (.valueError "x".data) from rfl] at h
  exact PyError.noConfusion (Except.error.inj h)
